import Mathlib

/-!
Verification of the Simple-Agent task tracker (`src/agent/agency.py`) and
model-client abstraction (`src/llms/llm.py`).

Python is dynamically typed: tool argument mappings carry arbitrary values,
and `dict.get` returns `None` for an absent key.  We embed the runtime
values the task-tracker code can actually encounter as `PyVal`, with
Python's truthiness.  Array-valued arguments are declared `array of string`
in every tool schema, so the `list` constructor carries `List String`.
-/

namespace SimpleAgent

inductive PyVal where
  | str (s : String)
  | list (xs : List String)
  | bool (b : Bool)
  | none
  deriving Repr, DecidableEq

/-- Python truthiness: `None` and `False` are falsy, `""` is falsy, `[]` is falsy. -/
def PyVal.truthy : PyVal → Bool
  | .str s => !(s = "")
  | .list xs => !xs.isEmpty
  | .bool b => b
  | .none => false

/-- Python `isinstance(v, list)`. -/
def PyVal.isList : PyVal → Bool
  | .list _ => true
  | _ => false

/-- Python `v is None`. -/
def PyVal.isNone : PyVal → Bool
  | .none => true
  | _ => false

/-- Python `v == s` for a string `s` on the right: equal only when `v` is that string. -/
def PyVal.eqStr : PyVal → String → Bool
  | .str t, s => t = s
  | _, _ => false

/-- Python `str(v)`, as used by f-string interpolation in the tool messages. -/
def PyVal.pyStr : PyVal → String
  | .str s => s
  | .list xs => "[" ++ String.intercalate ", " (xs.map (fun s => "\x27" ++ s ++ "\x27")) ++ "]"
  | .bool true => "True"
  | .bool false => "False"
  | .none => "None"

/-- Python `x or y` (returns `x` when truthy, else `y`). -/
def pyOr (x y : PyVal) : PyVal := if x.truthy then x else y

/-- A tool-call argument mapping (`args` in the generated tool closures). -/
def Args := List (String × PyVal)

/-- Python `args.get(k)`: the stored value, or `None` when the key is absent. -/
def argsGet (args : Args) (k : String) : PyVal :=
  match List.lookup k args with
  | Option.some v => v
  | Option.none => PyVal.none

/-- The `Task` dataclass of `src/agent/agency.py`.  The dataclass annotates
`description : str`, `requirements : List[str]`, `completed : bool`,
`notes : str`, but Python does not enforce the annotations at runtime (the
generated tools can and do store `None` into `notes`), so the dynamic fields
are embedded as `PyVal`; `id` is always constructed internally from
`get_new_task_id` and is a genuine string. -/
structure Task where
  id : String
  description : PyVal
  requirements : PyVal
  completed : PyVal
  notes : PyVal
  deriving Repr, DecidableEq

/-- One `pubsub.publish(topic, task)` call made by an `Agency` method. -/
structure Event where
  topic : String
  payload : Task
  deriving Repr, DecidableEq

/-- Result of one `Agency` task operation: the Python return value, the task
list after the call, and the bus events published during the call.
(`console.print` calls are terminal output, not bus events, and are not
modelled; `silence_actions` only gates printing.) -/
structure OpResult where
  ok : Bool
  tasks : List Task
  events : List Event
  deriving Repr, DecidableEq

/-- `Agency.get_new_task_id`: `f"task_{len(self.tasks) + 1}"`. -/
def Agency.get_new_task_id (tasks : List Task) : String :=
  "task_" ++ Nat.repr (tasks.length + 1)

/-- `Agency.get_incomplete_tasks`: `[t for t in self.tasks if not t.completed]`. -/
def Agency.get_incomplete_tasks (tasks : List Task) : List Task :=
  tasks.filter (fun t => !t.completed.truthy)

/-- `Agency.create_task`.  The `try` body performs only an id computation, a
dataclass construction, an append and a publish, none of which can raise, so
the `except` branch (return `False`) is unreachable and the method always
returns `True`. -/
def Agency.create_task (tasks : List Task) (description requirements completed : PyVal) :
    OpResult :=
  let id := Agency.get_new_task_id tasks
  let task : Task := ⟨id, description, requirements, completed, PyVal.str ""⟩
  ⟨true, tasks ++ [task], [⟨"task_created", task⟩]⟩

/-- `Agency.complete_task`: scans `self.tasks` in order; on the first task
whose `id` equals `task_id` it sets `completed = True`, publishes
`task_completed` with the mutated task, and returns `True`; if no task
matches it prints a not-found message and returns `False` (publishing
nothing).  The loop body cannot raise, so the `except` branch is
unreachable. -/
def Agency.complete_task (tasks : List Task) (task_id : PyVal) : OpResult :=
  match tasks with
  | [] => ⟨false, [], []⟩
  | t :: rest =>
    if task_id.eqStr t.id then
      let t' := { t with completed := PyVal.bool true }
      ⟨true, t' :: rest, [⟨"task_completed", t'⟩]⟩
    else
      let r := Agency.complete_task rest task_id
      ⟨r.ok, t :: r.tasks, r.events⟩

/-- `Agency.modify_task_notes`: first matching task gets `notes` replaced
wholesale and a `task_notes_modified` publish; not-found returns `False`
with no publish. -/
def Agency.modify_task_notes (tasks : List Task) (task_id notes : PyVal) : OpResult :=
  match tasks with
  | [] => ⟨false, [], []⟩
  | t :: rest =>
    if task_id.eqStr t.id then
      let t' := { t with notes := notes }
      ⟨true, t' :: rest, [⟨"task_notes_modified", t'⟩]⟩
    else
      let r := Agency.modify_task_notes rest task_id notes
      ⟨r.ok, t :: r.tasks, r.events⟩

/-- `Agency.modify_task_requirements`: first matching task gets
`requirements` replaced wholesale and a `task_requirements_modified`
publish; not-found returns `False` with no publish. -/
def Agency.modify_task_requirements (tasks : List Task) (task_id requirements : PyVal) :
    OpResult :=
  match tasks with
  | [] => ⟨false, [], []⟩
  | t :: rest =>
    if task_id.eqStr t.id then
      let t' := { t with requirements := requirements }
      ⟨true, t' :: rest, [⟨"task_requirements_modified", t'⟩]⟩
    else
      let r := Agency.modify_task_requirements rest task_id requirements
      ⟨r.ok, t :: r.tasks, r.events⟩

/-- Result of one generated tool's `run` closure: the returned text,
whether the underlying `Agency` method was invoked, the task list after the
call, and the events published. -/
structure ToolRunResult where
  output : String
  invoked : Bool
  tasks : List Task
  events : List Event
  deriving Repr, DecidableEq

/-- The JSON-schema `parameters` object of a generated tool: the declared
property names and the `required` list (property types are not needed by
any claim and are carried by the tools' validation code itself). -/
structure ToolSchema where
  properties : List String
  required : List String
  deriving Repr, DecidableEq

/-- A `Tool` as constructed by the `Agency` tool factories
(`tools.index.Tool(name, description, function, parameters)`). -/
structure Tool where
  name : String
  description : String
  function : List Task → Args → ToolRunResult
  parameters : ToolSchema

/-- The `run` closure of `Agency.create_task_tool`.  Mirrors the Python
statement order: the argument reads and the id computation happen before
validation, then `description` truthiness, `requirements` truthiness,
`isinstance(requirements, list)`, then delegation to `create_task`. -/
def Agency.create_task_tool_run (tasks : List Task) (args : Args) : ToolRunResult :=
  let description := argsGet args "description"
  let requirements := argsGet args "requirements"
  let completed := pyOr (argsGet args "completed") (PyVal.bool false)
  let id := Agency.get_new_task_id tasks
  if !description.truthy then
    ⟨"Error creating task: No description provided.", false, tasks, []⟩
  else if !requirements.truthy then
    ⟨"Error creating task: No requirements provided.", false, tasks, []⟩
  else if !requirements.isList then
    ⟨"Error creating task: Requirements must be a list.", false, tasks, []⟩
  else
    let r := Agency.create_task tasks description requirements completed
    if !r.ok then ⟨"Error creating task.", true, r.tasks, r.events⟩
    else ⟨"Task created with id " ++ id ++ ".", true, r.tasks, r.events⟩

/-- `Agency.create_task_tool`: the `Tool` record built around the closure. -/
def Agency.create_task_tool : Tool :=
  ⟨"create_task", "Use this tool to create a new task.",
   Agency.create_task_tool_run,
   ⟨["description", "requirements", "completed"], ["description", "requirements"]⟩⟩

/-- The `run` closure of `Agency.complete_task_tool`: only `task_id is None`
is checked before delegation. -/
def Agency.complete_task_tool_run (tasks : List Task) (args : Args) : ToolRunResult :=
  let task_id := argsGet args "task_id"
  if task_id.isNone then
    ⟨"Task with id " ++ task_id.pyStr ++ " not found.", false, tasks, []⟩
  else
    let r := Agency.complete_task tasks task_id
    if !r.ok then
      ⟨"Error completing task with id " ++ task_id.pyStr ++ ".", true, r.tasks, r.events⟩
    else
      ⟨"Task with id " ++ task_id.pyStr ++ " marked as complete.", true, r.tasks, r.events⟩

/-- `Agency.complete_task_tool`. -/
def Agency.complete_task_tool : Tool :=
  ⟨"complete_task", "Use this to mark a task complete.",
   Agency.complete_task_tool_run,
   ⟨["task_id"], ["task_id"]⟩⟩

/-- The `run` closure of `Agency.modify_task_notes_tool`.  Note: it reads
`notes` but never validates it — only `task_id is None` is checked, so an
absent `notes` argument is passed through to `modify_task_notes` as `None`. -/
def Agency.modify_task_notes_tool_run (tasks : List Task) (args : Args) : ToolRunResult :=
  let task_id := argsGet args "task_id"
  let notes := argsGet args "notes"
  if task_id.isNone then
    ⟨"Task with id " ++ task_id.pyStr ++ " not found.", false, tasks, []⟩
  else
    let r := Agency.modify_task_notes tasks task_id notes
    if !r.ok then
      ⟨"Error modifying notes for task with id " ++ task_id.pyStr ++ ".", true, r.tasks, r.events⟩
    else
      ⟨"Notes for task with id " ++ task_id.pyStr ++ " modified.", true, r.tasks, r.events⟩

/-- `Agency.modify_task_notes_tool`. -/
def Agency.modify_task_notes_tool : Tool :=
  ⟨"modify_task_notes", "Use this to modify the notes for a task.",
   Agency.modify_task_notes_tool_run,
   ⟨["task_id", "notes"], ["task_id", "notes"]⟩⟩

/-- The `run` closure of `Agency.modify_task_requirements_tool`: checks
`task_id is None`, then `requirements` truthiness, then
`isinstance(requirements, list)`, then delegates. -/
def Agency.modify_task_requirements_tool_run (tasks : List Task) (args : Args) :
    ToolRunResult :=
  let task_id := argsGet args "task_id"
  let requirements := argsGet args "requirements"
  if task_id.isNone then
    ⟨"Task with id " ++ task_id.pyStr ++ " not found.", false, tasks, []⟩
  else if !requirements.truthy then
    ⟨"Error modifying task: No requirements provided.", false, tasks, []⟩
  else if !requirements.isList then
    ⟨"Error modifying task: Requirements must be a list.", false, tasks, []⟩
  else
    let r := Agency.modify_task_requirements tasks task_id requirements
    if !r.ok then
      ⟨"Error modifying requirements for task with id " ++ task_id.pyStr ++ ".", true,
       r.tasks, r.events⟩
    else
      ⟨"Requirements for task with id " ++ task_id.pyStr ++ " modified.", true,
       r.tasks, r.events⟩

/-- `Agency.modify_task_requirements_tool`. -/
def Agency.modify_task_requirements_tool : Tool :=
  ⟨"modify_task_requirements", "Use this to modify the requirements for a task.",
   Agency.modify_task_requirements_tool_run,
   ⟨["task_id", "requirements"], ["task_id", "requirements"]⟩⟩

/-- One of the four task-mutating `Agency` operations, for stating
state-evolution invariants. -/
inductive AgencyOp where
  | create (description requirements completed : PyVal)
  | complete (task_id : PyVal)
  | modify_notes (task_id notes : PyVal)
  | modify_reqs (task_id requirements : PyVal)

/-- The task list resulting from one `Agency` operation. -/
def Agency.apply_op (tasks : List Task) : AgencyOp → List Task
  | .create d r c => (Agency.create_task tasks d r c).tasks
  | .complete i => (Agency.complete_task tasks i).tasks
  | .modify_notes i n => (Agency.modify_task_notes tasks i n).tasks
  | .modify_reqs i r => (Agency.modify_task_requirements tasks i r).tasks

/-- A sequence of `create_task` invocations, applied in order. -/
def create_many (tasks : List Task) : List (PyVal × PyVal × PyVal) → List Task
  | [] => tasks
  | (d, r, c) :: rest => create_many (Agency.create_task tasks d r c).tasks rest

/-- The `ToolCall` dataclass of `tools.index` as used by `src/llms/llm.py`. -/
structure ToolCall where
  id : String
  name : String
  arguments : Args

/-- The `Message` dataclass of `src/llms/llm.py`. -/
structure Message where
  id : Option String
  content : Option String
  role : String
  tool_calls : Option (List ToolCall)
  tool_call_id : Option String

/-- The `LLM` class of `src/llms/llm.py`: `get_model_response` is the
injected backend callback, `system_prompt` is the field assigned by
`startup` and extended by `append_to_system_prompt`.  The optional
`on_startup` hook performs backend initialization with no access to the
prompt fields and is not modelled. -/
structure LLM where
  name : String
  model_name : String
  get_model_response : List Message → List Tool → String → Message
  system_prompt : String

/-- `LLM.startup`: stores the system prompt (then runs the `on_startup`
hook, which touches no `LLM` field). -/
def LLM.startup (l : LLM) (system_prompt : String) : LLM :=
  { l with system_prompt := system_prompt }

/-- `LLM.get_response`: calls the backend with the transcript, tools and
the stored prompt; assigns no field. -/
def LLM.get_response (l : LLM) (messages : List Message) (tools : List Tool) : Message :=
  l.get_model_response messages tools l.system_prompt

/-- `LLM.get_text_response`: one-shot call with a caller-supplied prompt;
returns `""` when the response content is falsy; assigns no field. -/
def LLM.get_text_response (l : LLM) (message : String) (system_prompt : String) : String :=
  let response :=
    l.get_model_response [⟨Option.none, Option.some message, "user", Option.none, Option.none⟩]
      [] system_prompt
  match response.content with
  | Option.none => ""
  | Option.some c => if c = "" then "" else c

/-- `LLM.append_to_system_prompt`: `self.system_prompt += f"\n{message}"`,
returning the new prompt. -/
def LLM.append_to_system_prompt (l : LLM) (message : String) : LLM × String :=
  let s := l.system_prompt ++ "\n" ++ message
  ({ l with system_prompt := s }, s)

/-- The four public `LLM` methods, for stating which of them mutate the
stored prompt. -/
inductive LLMOp where
  | startup (system_prompt : String)
  | get_response (messages : List Message) (tools : List Tool)
  | get_text_response (message : String) (system_prompt : String)
  | append_to_system_prompt (message : String)

/-- The `LLM` state after one method call (`get_response` and
`get_text_response` assign no field, so they return the state unchanged). -/
def LLM.run (l : LLM) : LLMOp → LLM
  | .startup p => l.startup p
  | .get_response _ _ => l
  | .get_text_response _ _ => l
  | .append_to_system_prompt m => (l.append_to_system_prompt m).1

/-- Numeric value of a decimal digit character. -/
def charVal (c : Char) : Nat := c.toNat - 48

/-- Value of a most-significant-first decimal digit string. -/
def evalDigits (l : List Char) : Nat := l.foldl (fun a c => 10 * a + charVal c) 0

/-- A concrete task fixture used to instantiate theorems on explicit inputs. -/
def sampleTask : Task :=
  ⟨"task_1", PyVal.str "d", PyVal.list ["r"], PyVal.bool false, PyVal.str ""⟩

theorem charVal_digitChar : ∀ m, m < 10 → charVal (Nat.digitChar m) = m := by decide

theorem toDigitsCore_append (b : Nat) :
    ∀ (fuel n : Nat) (ds : List Char),
      Nat.toDigitsCore b fuel n ds = Nat.toDigitsCore b fuel n [] ++ ds := by
  intro fuel
  induction fuel with
  | zero => intro n ds; simp [Nat.toDigitsCore]
  | succ f ih =>
    intro n ds
    simp only [Nat.toDigitsCore]
    by_cases h : n / b = 0
    · simp [h]
    · simp only [if_neg h]
      rw [ih (n / b) (Nat.digitChar (n % b) :: ds), ih (n / b) [Nat.digitChar (n % b)]]
      simp

theorem evalDigits_append_one (xs : List Char) (c : Char) :
    evalDigits (xs ++ [c]) = 10 * evalDigits xs + charVal c := by
  simp [evalDigits, List.foldl_append]

theorem evalDigits_toDigitsCore :
    ∀ (fuel n : Nat), n < fuel → evalDigits (Nat.toDigitsCore 10 fuel n []) = n := by
  intro fuel
  induction fuel with
  | zero => intro n h; exact absurd h (Nat.not_lt_zero n)
  | succ f ih =>
    intro n h
    simp only [Nat.toDigitsCore]
    by_cases h0 : n / 10 = 0
    · have hmod := Nat.div_add_mod n 10
      have hn : n % 10 = n := by omega
      simp only [if_pos h0]
      show evalDigits [Nat.digitChar (n % 10)] = n
      have hcv := charVal_digitChar (n % 10) (Nat.mod_lt n (by norm_num))
      rw [hn] at hcv
      rw [hn]
      simp [evalDigits, hcv]
    · have hpos : 0 < n := by
        rcases Nat.eq_zero_or_pos n with rfl | hp
        · exact absurd (by norm_num) h0
        · exact hp
      have hlt : n / 10 < f := by
        have h1 : n / 10 < n := Nat.div_lt_self hpos (by norm_num)
        omega
      simp only [if_neg h0]
      rw [toDigitsCore_append 10 f (n / 10) [Nat.digitChar (n % 10)]]
      rw [evalDigits_append_one]
      rw [ih (n / 10) hlt]
      rw [charVal_digitChar (n % 10) (Nat.mod_lt n (by norm_num))]
      exact Nat.div_add_mod n 10

theorem evalDigits_repr (n : Nat) : evalDigits (Nat.repr n).data = n := by
  have h : (Nat.repr n).data = Nat.toDigitsCore 10 (n + 1) n [] := by
    simp [Nat.repr, Nat.toDigits, List.asString]
  rw [h]
  exact evalDigits_toDigitsCore (n + 1) n (Nat.lt_succ_self n)

theorem repr_injective {m n : Nat} (h : Nat.repr m = Nat.repr n) : m = n := by
  have h2 : evalDigits (Nat.repr m).data = evalDigits (Nat.repr n).data := by rw [h]
  rwa [evalDigits_repr, evalDigits_repr] at h2

theorem string_data_inj : ∀ {s t : String}, s.data = t.data → s = t := by
  intro s t h
  cases s
  cases t
  exact congrArg String.mk (by simpa using h)

theorem task_id_injective {m n : Nat}
    (h : "task_" ++ Nat.repr m = "task_" ++ Nat.repr n) : m = n := by
  apply repr_injective
  have hd : ("task_" ++ Nat.repr m).data = ("task_" ++ Nat.repr n).data := by rw [h]
  simp only [String.data_append] at hd
  exact string_data_inj (List.append_cancel_left hd)

theorem eqStr_str (a b : String) : PyVal.eqStr (PyVal.str a) b = decide (a = b) := rfl

theorem complete_task_not_found (tasks : List Task) (id : String)
    (h : ∀ t ∈ tasks, t.id ≠ id) :
    Agency.complete_task tasks (PyVal.str id) = ⟨false, tasks, []⟩ := by
  induction tasks with
  | nil => rfl
  | cons t rest ih =>
    have ht : t.id ≠ id := h t (List.mem_cons_self t rest)
    have hc : PyVal.eqStr (PyVal.str id) t.id = false := by
      simp [PyVal.eqStr]
      exact fun e => ht e.symm
    simp only [Agency.complete_task, hc, Bool.false_eq_true, if_false]
    rw [ih (fun u hu => h u (List.mem_cons_of_mem t hu))]

theorem complete_task_found (l₁ : List Task) (t : Task) (l₂ : List Task) (id : String)
    (h : ∀ u ∈ l₁, u.id ≠ id) (ht : t.id = id) :
    Agency.complete_task (l₁ ++ t :: l₂) (PyVal.str id) =
      ⟨true, l₁ ++ { t with completed := PyVal.bool true } :: l₂,
       [⟨"task_completed", { t with completed := PyVal.bool true }⟩]⟩ := by
  induction l₁ with
  | nil =>
    have hc : PyVal.eqStr (PyVal.str id) t.id = true := by simp [PyVal.eqStr, ht]
    simp [Agency.complete_task, hc]
  | cons u rest ih =>
    have hu : u.id ≠ id := h u (List.mem_cons_self u rest)
    have hc : PyVal.eqStr (PyVal.str id) u.id = false := by
      simp [PyVal.eqStr]
      exact fun e => hu e.symm
    simp only [List.cons_append, Agency.complete_task, hc, Bool.false_eq_true, if_false,
      List.append_eq]
    rw [ih (fun v hv => h v (List.mem_cons_of_mem u hv))]

theorem complete_task_ok_iff (tasks : List Task) (id : String) :
    (Agency.complete_task tasks (PyVal.str id)).ok = true ↔ ∃ t ∈ tasks, t.id = id := by
  induction tasks with
  | nil => simp [Agency.complete_task]
  | cons t rest ih =>
    by_cases h : t.id = id
    · have hc : PyVal.eqStr (PyVal.str id) t.id = true := by simp [PyVal.eqStr, h]
      have hok : (Agency.complete_task (t :: rest) (PyVal.str id)).ok = true := by
        simp [Agency.complete_task, hc]
      exact iff_of_true hok ⟨t, List.mem_cons_self t rest, h⟩
    · have hc : PyVal.eqStr (PyVal.str id) t.id = false := by
        simp [PyVal.eqStr]
        exact fun e => h e.symm
      simp only [Agency.complete_task, hc, Bool.false_eq_true, if_false]
      simpa [h] using ih

theorem modify_task_notes_not_found (tasks : List Task) (id : String) (notes : PyVal)
    (h : ∀ t ∈ tasks, t.id ≠ id) :
    Agency.modify_task_notes tasks (PyVal.str id) notes = ⟨false, tasks, []⟩ := by
  induction tasks with
  | nil => rfl
  | cons t rest ih =>
    have ht : t.id ≠ id := h t (List.mem_cons_self t rest)
    have hc : PyVal.eqStr (PyVal.str id) t.id = false := by
      simp [PyVal.eqStr]
      exact fun e => ht e.symm
    simp only [Agency.modify_task_notes, hc, Bool.false_eq_true, if_false]
    rw [ih (fun u hu => h u (List.mem_cons_of_mem t hu))]

theorem modify_task_notes_found (l₁ : List Task) (t : Task) (l₂ : List Task) (id : String)
    (notes : PyVal) (h : ∀ u ∈ l₁, u.id ≠ id) (ht : t.id = id) :
    Agency.modify_task_notes (l₁ ++ t :: l₂) (PyVal.str id) notes =
      ⟨true, l₁ ++ { t with notes := notes } :: l₂,
       [⟨"task_notes_modified", { t with notes := notes }⟩]⟩ := by
  induction l₁ with
  | nil =>
    have hc : PyVal.eqStr (PyVal.str id) t.id = true := by simp [PyVal.eqStr, ht]
    simp [Agency.modify_task_notes, hc]
  | cons u rest ih =>
    have hu : u.id ≠ id := h u (List.mem_cons_self u rest)
    have hc : PyVal.eqStr (PyVal.str id) u.id = false := by
      simp [PyVal.eqStr]
      exact fun e => hu e.symm
    simp only [List.cons_append, Agency.modify_task_notes, hc, Bool.false_eq_true, if_false,
      List.append_eq]
    rw [ih (fun v hv => h v (List.mem_cons_of_mem u hv))]

theorem modify_task_notes_ok_iff (tasks : List Task) (id : String) (notes : PyVal) :
    (Agency.modify_task_notes tasks (PyVal.str id) notes).ok = true ↔
      ∃ t ∈ tasks, t.id = id := by
  induction tasks with
  | nil => simp [Agency.modify_task_notes]
  | cons t rest ih =>
    by_cases h : t.id = id
    · have hc : PyVal.eqStr (PyVal.str id) t.id = true := by simp [PyVal.eqStr, h]
      have hok : (Agency.modify_task_notes (t :: rest) (PyVal.str id) notes).ok = true := by
        simp [Agency.modify_task_notes, hc]
      exact iff_of_true hok ⟨t, List.mem_cons_self t rest, h⟩
    · have hc : PyVal.eqStr (PyVal.str id) t.id = false := by
        simp [PyVal.eqStr]
        exact fun e => h e.symm
      simp only [Agency.modify_task_notes, hc, Bool.false_eq_true, if_false]
      simpa [h] using ih

theorem modify_task_requirements_not_found (tasks : List Task) (id : String) (reqs : PyVal)
    (h : ∀ t ∈ tasks, t.id ≠ id) :
    Agency.modify_task_requirements tasks (PyVal.str id) reqs = ⟨false, tasks, []⟩ := by
  induction tasks with
  | nil => rfl
  | cons t rest ih =>
    have ht : t.id ≠ id := h t (List.mem_cons_self t rest)
    have hc : PyVal.eqStr (PyVal.str id) t.id = false := by
      simp [PyVal.eqStr]
      exact fun e => ht e.symm
    simp only [Agency.modify_task_requirements, hc, Bool.false_eq_true, if_false]
    rw [ih (fun u hu => h u (List.mem_cons_of_mem t hu))]

theorem modify_task_requirements_found (l₁ : List Task) (t : Task) (l₂ : List Task)
    (id : String) (reqs : PyVal) (h : ∀ u ∈ l₁, u.id ≠ id) (ht : t.id = id) :
    Agency.modify_task_requirements (l₁ ++ t :: l₂) (PyVal.str id) reqs =
      ⟨true, l₁ ++ { t with requirements := reqs } :: l₂,
       [⟨"task_requirements_modified", { t with requirements := reqs }⟩]⟩ := by
  induction l₁ with
  | nil =>
    have hc : PyVal.eqStr (PyVal.str id) t.id = true := by simp [PyVal.eqStr, ht]
    simp [Agency.modify_task_requirements, hc]
  | cons u rest ih =>
    have hu : u.id ≠ id := h u (List.mem_cons_self u rest)
    have hc : PyVal.eqStr (PyVal.str id) u.id = false := by
      simp [PyVal.eqStr]
      exact fun e => hu e.symm
    simp only [List.cons_append, Agency.modify_task_requirements, hc, Bool.false_eq_true,
      if_false, List.append_eq]
    rw [ih (fun v hv => h v (List.mem_cons_of_mem u hv))]

theorem modify_task_requirements_ok_iff (tasks : List Task) (id : String) (reqs : PyVal) :
    (Agency.modify_task_requirements tasks (PyVal.str id) reqs).ok = true ↔
      ∃ t ∈ tasks, t.id = id := by
  induction tasks with
  | nil => simp [Agency.modify_task_requirements]
  | cons t rest ih =>
    by_cases h : t.id = id
    · have hc : PyVal.eqStr (PyVal.str id) t.id = true := by simp [PyVal.eqStr, h]
      have hok : (Agency.modify_task_requirements (t :: rest) (PyVal.str id) reqs).ok
          = true := by
        simp [Agency.modify_task_requirements, hc]
      exact iff_of_true hok ⟨t, List.mem_cons_self t rest, h⟩
    · have hc : PyVal.eqStr (PyVal.str id) t.id = false := by
        simp [PyVal.eqStr]
        exact fun e => h e.symm
      simp only [Agency.modify_task_requirements, hc, Bool.false_eq_true, if_false]
      simpa [h] using ih

theorem complete_task_pointwise (task_id : PyVal) :
    ∀ (tasks : List Task) (i : Nat) (t : Task), tasks[i]? = Option.some t →
      ∃ t', ((Agency.complete_task tasks task_id).tasks)[i]? = Option.some t' ∧
        t'.id = t.id ∧ (t.completed.truthy = true → t'.completed.truthy = true) := by
  intro tasks
  induction tasks with
  | nil => intro i t h; simp at h
  | cons u rest ih =>
    intro i t h
    by_cases hc : task_id.eqStr u.id
    · simp only [Agency.complete_task, hc, if_true]
      cases i with
      | zero =>
        simp only [List.getElem?_cons_zero, Option.some.injEq] at h
        exact ⟨{ u with completed := PyVal.bool true }, by simp, by rw [← h], by
          intro _; rfl⟩
      | succ j =>
        simp only [List.getElem?_cons_succ] at h ⊢
        exact ⟨t, h, rfl, fun w => w⟩
    · simp only [Agency.complete_task, hc, Bool.false_eq_true, if_false]
      cases i with
      | zero =>
        simp only [List.getElem?_cons_zero, Option.some.injEq] at h
        exact ⟨u, by simp, by rw [← h], by rw [← h]; exact fun w => w⟩
      | succ j =>
        simp only [List.getElem?_cons_succ] at h ⊢
        exact ih j t h

theorem modify_task_notes_pointwise (task_id notes : PyVal) :
    ∀ (tasks : List Task) (i : Nat) (t : Task), tasks[i]? = Option.some t →
      ∃ t', ((Agency.modify_task_notes tasks task_id notes).tasks)[i]? = Option.some t' ∧
        t'.id = t.id ∧ (t.completed.truthy = true → t'.completed.truthy = true) := by
  intro tasks
  induction tasks with
  | nil => intro i t h; simp at h
  | cons u rest ih =>
    intro i t h
    by_cases hc : task_id.eqStr u.id
    · simp only [Agency.modify_task_notes, hc, if_true]
      cases i with
      | zero =>
        simp only [List.getElem?_cons_zero, Option.some.injEq] at h
        exact ⟨{ u with notes := notes }, by simp, by rw [← h], by rw [← h]; exact fun w => w⟩
      | succ j =>
        simp only [List.getElem?_cons_succ] at h ⊢
        exact ⟨t, h, rfl, fun w => w⟩
    · simp only [Agency.modify_task_notes, hc, Bool.false_eq_true, if_false]
      cases i with
      | zero =>
        simp only [List.getElem?_cons_zero, Option.some.injEq] at h
        exact ⟨u, by simp, by rw [← h], by rw [← h]; exact fun w => w⟩
      | succ j =>
        simp only [List.getElem?_cons_succ] at h ⊢
        exact ih j t h

theorem modify_task_requirements_pointwise (task_id reqs : PyVal) :
    ∀ (tasks : List Task) (i : Nat) (t : Task), tasks[i]? = Option.some t →
      ∃ t', ((Agency.modify_task_requirements tasks task_id reqs).tasks)[i]? =
          Option.some t' ∧
        t'.id = t.id ∧ (t.completed.truthy = true → t'.completed.truthy = true) := by
  intro tasks
  induction tasks with
  | nil => intro i t h; simp at h
  | cons u rest ih =>
    intro i t h
    by_cases hc : task_id.eqStr u.id
    · simp only [Agency.modify_task_requirements, hc, if_true]
      cases i with
      | zero =>
        simp only [List.getElem?_cons_zero, Option.some.injEq] at h
        exact ⟨{ u with requirements := reqs }, by simp, by rw [← h], by
          rw [← h]; exact fun w => w⟩
      | succ j =>
        simp only [List.getElem?_cons_succ] at h ⊢
        exact ⟨t, h, rfl, fun w => w⟩
    · simp only [Agency.modify_task_requirements, hc, Bool.false_eq_true, if_false]
      cases i with
      | zero =>
        simp only [List.getElem?_cons_zero, Option.some.injEq] at h
        exact ⟨u, by simp, by rw [← h], by rw [← h]; exact fun w => w⟩
      | succ j =>
        simp only [List.getElem?_cons_succ] at h ⊢
        exact ih j t h

theorem complete_task_length (task_id : PyVal) :
    ∀ tasks : List Task, (Agency.complete_task tasks task_id).tasks.length = tasks.length := by
  intro tasks
  induction tasks with
  | nil => rfl
  | cons u rest ih =>
    by_cases hc : task_id.eqStr u.id
    · simp [Agency.complete_task, hc]
    · simp [Agency.complete_task, hc, ih]

theorem modify_task_notes_length (task_id notes : PyVal) :
    ∀ tasks : List Task,
      (Agency.modify_task_notes tasks task_id notes).tasks.length = tasks.length := by
  intro tasks
  induction tasks with
  | nil => rfl
  | cons u rest ih =>
    by_cases hc : task_id.eqStr u.id
    · simp [Agency.modify_task_notes, hc]
    · simp [Agency.modify_task_notes, hc, ih]

theorem modify_task_requirements_length (task_id reqs : PyVal) :
    ∀ tasks : List Task,
      (Agency.modify_task_requirements tasks task_id reqs).tasks.length = tasks.length := by
  intro tasks
  induction tasks with
  | nil => rfl
  | cons u rest ih =>
    by_cases hc : task_id.eqStr u.id
    · simp [Agency.modify_task_requirements, hc]
    · simp [Agency.modify_task_requirements, hc, ih]

theorem create_many_map_id :
    ∀ (inputs : List (PyVal × PyVal × PyVal)) (tasks : List Task),
      (create_many tasks inputs).map Task.id =
        tasks.map Task.id ++
          (List.range inputs.length).map
            (fun i => "task_" ++ Nat.repr (tasks.length + i + 1)) := by
  intro inputs
  induction inputs with
  | nil => intro tasks; simp [create_many]
  | cons p rest ih =>
    intro tasks
    obtain ⟨d, r, c⟩ := p
    simp only [create_many, Agency.create_task, Agency.get_new_task_id]
    rw [ih]
    simp only [List.map_append, List.length_append, List.length_cons, List.length_nil,
      List.map_cons, List.map_nil, List.length_map, List.length_range]
    rw [List.append_assoc]
    congr 1
    have hr : List.range (rest.length + 1) = 0 :: (List.range rest.length).map Nat.succ :=
      List.range_succ_eq_map rest.length
    rw [hr]
    simp only [List.map_cons, List.map_map, List.singleton_append, Nat.add_zero, Nat.zero_add]
    congr 1
    apply List.map_congr_left
    intro i _
    simp only [Function.comp_apply]
    have h2 : tasks.length + 1 + i + 1 = tasks.length + (i + 1) + 1 := by omega
    rw [h2]

theorem exists_first_match {tasks : List Task} {id : String}
    (h : ∃ t ∈ tasks, t.id = id) :
    ∃ l₁ t l₂, tasks = l₁ ++ t :: l₂ ∧ (∀ u ∈ l₁, u.id ≠ id) ∧ t.id = id := by
  induction tasks with
  | nil => simp at h
  | cons a rest ih =>
    by_cases ha : a.id = id
    · exact ⟨[], a, rest, rfl, by simp, ha⟩
    · obtain ⟨t, ht, hid⟩ := h
      rcases List.mem_cons.mp ht with rfl | hmem
      · exact absurd hid ha
      · obtain ⟨l₁, t', l₂, e, h1, h2⟩ := ih ⟨t, hmem, hid⟩
        refine ⟨a :: l₁, t', l₂, by rw [e, List.cons_append], ?_, h2⟩
        intro u hu
        rcases List.mem_cons.mp hu with rfl | hu2
        · exact ha
        · exact h1 u hu2

/-- C8: `get_incomplete_tasks` returns exactly the tasks whose completion
flag is falsy — a sublist of the task list (so creation order is preserved),
containing a task iff it is in the list with a falsy completion flag, and
hence no task whose flag is truthy. -/
theorem claim_C8 (tasks : List Task) :
    List.Sublist (Agency.get_incomplete_tasks tasks) tasks ∧
    ∀ t, t ∈ Agency.get_incomplete_tasks tasks ↔
      t ∈ tasks ∧ t.completed.truthy = false := by
  constructor
  · exact List.filter_sublist tasks
  · intro t
    simp [Agency.get_incomplete_tasks, List.mem_filter]

/-- C9: `append_to_system_prompt` never replaces the prompt — the new prompt
has the old prompt as a prefix and the appended message as a suffix — and of
the `LLM` methods other than `startup` (which initially sets the prompt),
only `append_to_system_prompt` changes the stored prompt: `get_response`
and `get_text_response` leave it unchanged. -/
theorem claim_C9 :
    (∀ (l : LLM) (m : String),
      (∃ rest, (LLM.run l (LLMOp.append_to_system_prompt m)).system_prompt =
        l.system_prompt ++ rest) ∧
      (∃ pre, (LLM.run l (LLMOp.append_to_system_prompt m)).system_prompt = pre ++ m)) ∧
    (∀ (l : LLM) (messages : List Message) (tools : List Tool),
      (LLM.run l (LLMOp.get_response messages tools)).system_prompt = l.system_prompt) ∧
    (∀ (l : LLM) (m p : String),
      (LLM.run l (LLMOp.get_text_response m p)).system_prompt = l.system_prompt) := by
  refine ⟨fun l m => ⟨⟨"\n" ++ m, ?_⟩, ⟨l.system_prompt ++ "\n", ?_⟩⟩,
    fun l msgs tools => rfl, fun l m p => rfl⟩
  · show l.system_prompt ++ "\n" ++ m = l.system_prompt ++ ("\n" ++ m)
    rw [String.append_assoc]
  · rfl

/-- C3 counterexample: for the unknown id `task_404` each operation returns
`False` but publishes no event at all — in particular no event on the
`error` topic, contrary to the claim's `error`-topic publish. -/
theorem claim_C3_counterexample :
    (Agency.complete_task [] (PyVal.str "task_404")).ok = false ∧
    (Agency.complete_task [] (PyVal.str "task_404")).events = [] ∧
    (Agency.modify_task_notes [] (PyVal.str "task_404") (PyVal.str "n")).events = [] ∧
    (Agency.modify_task_requirements [] (PyVal.str "task_404")
      (PyVal.list ["r"])).events = [] :=
  ⟨rfl, rfl, rfl, rfl⟩

/-- C3 (amended): for every unknown task identifier, each of
`complete_task`, `modify_task_notes` and `modify_task_requirements` returns
`False`, leaves the task list unchanged, and publishes no event whatsoever —
the not-found report goes to the console only; there is no `error`-topic
publish. -/
theorem claim_C3 (tasks : List Task) (id : String) (notes reqs : PyVal)
    (h : ∀ t ∈ tasks, t.id ≠ id) :
    Agency.complete_task tasks (PyVal.str id) = ⟨false, tasks, []⟩ ∧
    Agency.modify_task_notes tasks (PyVal.str id) notes = ⟨false, tasks, []⟩ ∧
    Agency.modify_task_requirements tasks (PyVal.str id) reqs = ⟨false, tasks, []⟩ :=
  ⟨complete_task_not_found tasks id h, modify_task_notes_not_found tasks id notes h,
   modify_task_requirements_not_found tasks id reqs h⟩

/-- C3 witness: the amended statement instantiated on a concrete one-task
list and the unknown id `task_2`. -/
theorem claim_C3_witness :
    Agency.complete_task [sampleTask] (PyVal.str "task_2") = ⟨false, [sampleTask], []⟩ :=
  (claim_C3 [sampleTask] "task_2" (PyVal.str "n") (PyVal.list ["r"]) (by decide)).1

/-- C5: `complete_task(id)` succeeds exactly when a task with identifier
`id` exists; on success the first matching task's completion flag is set to
`True` and exactly one `task_completed` event is published; on failure the
task list is unchanged and no event (in particular no `task_completed`) is
published. -/
theorem claim_C5 (tasks : List Task) (id : String) :
    ((Agency.complete_task tasks (PyVal.str id)).ok = true ↔ ∃ t ∈ tasks, t.id = id) ∧
    (∀ l₁ t l₂, tasks = l₁ ++ t :: l₂ → (∀ u ∈ l₁, u.id ≠ id) → t.id = id →
      Agency.complete_task tasks (PyVal.str id) =
        ⟨true, l₁ ++ { t with completed := PyVal.bool true } :: l₂,
         [⟨"task_completed", { t with completed := PyVal.bool true }⟩]⟩) ∧
    ((Agency.complete_task tasks (PyVal.str id)).ok = false →
      Agency.complete_task tasks (PyVal.str id) = ⟨false, tasks, []⟩) := by
  refine ⟨complete_task_ok_iff tasks id, ?_, ?_⟩
  · intro l₁ t l₂ he h ht
    rw [he]
    exact complete_task_found l₁ t l₂ id h ht
  · intro hok
    have h : ∀ t ∈ tasks, t.id ≠ id := by
      intro t htm he
      have hm := (complete_task_ok_iff tasks id).mpr ⟨t, htm, he⟩
      exact absurd (hm.symm.trans hok) (by decide)
    exact complete_task_not_found tasks id h

/-- C5 witness: completing the only task of a one-task list sets its flag
and publishes exactly one `task_completed` event. -/
theorem claim_C5_witness :
    Agency.complete_task [sampleTask] (PyVal.str "task_1") =
      ⟨true, [{ sampleTask with completed := PyVal.bool true }],
       [⟨"task_completed", { sampleTask with completed := PyVal.bool true }⟩]⟩ :=
  (claim_C5 [sampleTask] "task_1").2.1 [] sampleTask [] rfl (by simp) rfl

/-- C6: on a known id, `complete_task` is idempotent in effect — the second
call leaves the task list exactly as after the first, still returns `True`,
and each of the two calls publishes a `task_completed` event (one per call,
no dedup). -/
theorem claim_C6 (tasks : List Task) (id : String) (h : ∃ t ∈ tasks, t.id = id) :
    (Agency.complete_task tasks (PyVal.str id)).ok = true ∧
    (Agency.complete_task (Agency.complete_task tasks (PyVal.str id)).tasks
      (PyVal.str id)).ok = true ∧
    (Agency.complete_task (Agency.complete_task tasks (PyVal.str id)).tasks
      (PyVal.str id)).tasks = (Agency.complete_task tasks (PyVal.str id)).tasks ∧
    (∃ t₁, (Agency.complete_task tasks (PyVal.str id)).events =
      [⟨"task_completed", t₁⟩]) ∧
    (∃ t₂, (Agency.complete_task (Agency.complete_task tasks (PyVal.str id)).tasks
      (PyVal.str id)).events = [⟨"task_completed", t₂⟩]) := by
  obtain ⟨l₁, t, l₂, he, h1, h2⟩ := exists_first_match h
  subst he
  have e1 := complete_task_found l₁ t l₂ id h1 h2
  have e2 := complete_task_found l₁ { t with completed := PyVal.bool true } l₂ id h1 h2
  simp only [e1]
  simp only [e2]
  exact ⟨trivial, trivial, trivial, ⟨_, rfl⟩, ⟨_, rfl⟩⟩

/-- C6 witness: the idempotence statement instantiated on a one-task list
and its own id. -/
theorem claim_C6_witness :
    (Agency.complete_task (Agency.complete_task [sampleTask] (PyVal.str "task_1")).tasks
      (PyVal.str "task_1")).tasks =
      (Agency.complete_task [sampleTask] (PyVal.str "task_1")).tasks :=
  (claim_C6 [sampleTask] "task_1" ⟨sampleTask, List.mem_cons_self sampleTask [], rfl⟩).2.2.1

/-- C7: a successful `modify_task_requirements(id, R)` replaces the first
matching task's requirement list wholesale with exactly `R` (not a merge),
leaving every other task untouched; likewise a successful
`modify_task_notes(id, notes)` replaces that task's notes with exactly
`notes`. -/
theorem claim_C7 (tasks : List Task) (id : String) (R : List String) (notes : String) :
    ((Agency.modify_task_requirements tasks (PyVal.str id) (PyVal.list R)).ok = true →
      ∃ l₁ t l₂, tasks = l₁ ++ t :: l₂ ∧ (∀ u ∈ l₁, u.id ≠ id) ∧ t.id = id ∧
        (Agency.modify_task_requirements tasks (PyVal.str id) (PyVal.list R)).tasks =
          l₁ ++ { t with requirements := PyVal.list R } :: l₂) ∧
    ((Agency.modify_task_notes tasks (PyVal.str id) (PyVal.str notes)).ok = true →
      ∃ l₁ t l₂, tasks = l₁ ++ t :: l₂ ∧ (∀ u ∈ l₁, u.id ≠ id) ∧ t.id = id ∧
        (Agency.modify_task_notes tasks (PyVal.str id) (PyVal.str notes)).tasks =
          l₁ ++ { t with notes := PyVal.str notes } :: l₂) := by
  constructor
  · intro hok
    obtain ⟨l₁, t, l₂, he, h1, h2⟩ := exists_first_match
      ((modify_task_requirements_ok_iff tasks id (PyVal.list R)).mp hok)
    refine ⟨l₁, t, l₂, he, h1, h2, ?_⟩
    rw [he, modify_task_requirements_found l₁ t l₂ id (PyVal.list R) h1 h2]
  · intro hok
    obtain ⟨l₁, t, l₂, he, h1, h2⟩ := exists_first_match
      ((modify_task_notes_ok_iff tasks id (PyVal.str notes)).mp hok)
    refine ⟨l₁, t, l₂, he, h1, h2, ?_⟩
    rw [he, modify_task_notes_found l₁ t l₂ id (PyVal.str notes) h1 h2]

/-- C7 witness: replacing the requirements of the only task of a one-task
list yields exactly the new list. -/
theorem claim_C7_witness :
    (Agency.modify_task_requirements [sampleTask] (PyVal.str "task_1")
      (PyVal.list ["x", "y"])).tasks =
      [{ sampleTask with requirements := PyVal.list ["x", "y"] }] := by
  have h := (claim_C7 [sampleTask] "task_1" ["x", "y"] "n").1 rfl
  obtain ⟨l₁, t, l₂, he, h1, h2, hres⟩ := h
  rw [hres]
  cases l₁ with
  | nil =>
    simp only [List.nil_append] at he ⊢
    cases he
    rfl
  | cons a b => simp at he

/-- C10: completion is monotone and tasks are never removed — after any of
the four `Agency` operations the task list is at least as long as before,
and every pre-existing position still holds a task with the same identifier
whose completion flag, if truthy before, is still truthy after. -/
theorem claim_C10 (tasks : List Task) (op : AgencyOp) :
    tasks.length ≤ (Agency.apply_op tasks op).length ∧
    ∀ (i : Nat) (t : Task), tasks[i]? = Option.some t →
      ∃ t', (Agency.apply_op tasks op)[i]? = Option.some t' ∧ t'.id = t.id ∧
        (t.completed.truthy = true → t'.completed.truthy = true) := by
  cases op with
  | create d r c =>
    constructor
    · simp [Agency.apply_op, Agency.create_task]
    · intro i t h
      have hi : i < tasks.length := by
        by_contra hn
        push_neg at hn
        rw [List.getElem?_eq_none hn] at h
        exact Option.noConfusion h
      refine ⟨t, ?_, rfl, fun w => w⟩
      show (Agency.create_task tasks d r c).tasks[i]? = Option.some t
      rw [show (Agency.create_task tasks d r c).tasks =
        tasks ++ [⟨Agency.get_new_task_id tasks, d, r, c, PyVal.str ""⟩] from rfl]
      rw [List.getElem?_append_left hi]
      exact h
  | complete tid =>
    exact ⟨le_of_eq (complete_task_length tid tasks).symm,
      fun i t h => complete_task_pointwise tid tasks i t h⟩
  | modify_notes tid n =>
    exact ⟨le_of_eq (modify_task_notes_length tid n tasks).symm,
      fun i t h => modify_task_notes_pointwise tid n tasks i t h⟩
  | modify_reqs tid r =>
    exact ⟨le_of_eq (modify_task_requirements_length tid r tasks).symm,
      fun i t h => modify_task_requirements_pointwise tid r tasks i t h⟩

/-- C10 witness: after completing the only task of a one-task list,
position 0 still holds a task with the same id. -/
theorem claim_C10_witness :
    (Agency.apply_op [{ sampleTask with completed := PyVal.bool true }]
      (AgencyOp.modify_notes (PyVal.str "task_1") (PyVal.str "n")))[0]? =
      Option.some { sampleTask with completed := PyVal.bool true, notes := PyVal.str "n" } := by
  have h := (claim_C10 [{ sampleTask with completed := PyVal.bool true }]
    (AgencyOp.modify_notes (PyVal.str "task_1") (PyVal.str "n"))).2 0
    { sampleTask with completed := PyVal.bool true } rfl
  rfl

/-- C4: starting from an empty task list, any sequence of N `create_task`
invocations (all of which succeed) assigns exactly the identifiers
`task_1 … task_N` in call order, with no identifier ever reused. -/
theorem claim_C4 :
    (∀ inputs : List (PyVal × PyVal × PyVal),
      (create_many [] inputs).map Task.id =
        (List.range inputs.length).map (fun i => "task_" ++ Nat.repr (i + 1)) ∧
      ((create_many [] inputs).map Task.id).Nodup) ∧
    (∀ (tasks : List Task) (d r c : PyVal), (Agency.create_task tasks d r c).ok = true) := by
  constructor
  · intro inputs
    have h := create_many_map_id inputs []
    simp only [List.map_nil, List.nil_append, List.length_nil, Nat.zero_add] at h
    constructor
    · exact h
    · rw [h]
      exact List.Nodup.map (fun a b hab => by
        have h2 := task_id_injective hab
        omega) (List.nodup_range inputs.length)
  · intro tasks d r c
    rfl

/-- C2 counterexample: the underlying `Agency.create_task` called with an
empty requirements list succeeds (returns `True`) and appends a task,
raising the task count from 0 to 1 — contrary to the claim that it fails
without appending. -/
theorem claim_C2_counterexample :
    (Agency.create_task [] (PyVal.str "d") (PyVal.list []) (PyVal.bool false)).ok = true ∧
    (Agency.create_task [] (PyVal.str "d") (PyVal.list [])
      (PyVal.bool false)).tasks.length = 1 :=
  ⟨rfl, rfl⟩

/-- C2 (amended): only the `create_task` Tool wrapper rejects an empty
requirements list — it returns a textual error without invoking
`create_task`, leaving the task list (and hence the count) unchanged —
while the underlying `Agency.create_task` performs no validation: with an
empty requirements list it still returns `True` and appends a task. -/
theorem claim_C2 :
    (∀ (tasks : List Task) (args : Args), argsGet args "requirements" = PyVal.list [] →
      (Agency.create_task_tool_run tasks args).invoked = false ∧
      (Agency.create_task_tool_run tasks args).tasks = tasks ∧
      (Agency.create_task_tool_run tasks args).events = [] ∧
      ((Agency.create_task_tool_run tasks args).output =
          "Error creating task: No description provided." ∨
        (Agency.create_task_tool_run tasks args).output =
          "Error creating task: No requirements provided.")) ∧
    (∀ (tasks : List Task) (d c : PyVal),
      (Agency.create_task tasks d (PyVal.list []) c).ok = true ∧
      (Agency.create_task tasks d (PyVal.list []) c).tasks.length = tasks.length + 1) := by
  constructor
  · intro tasks args h
    by_cases hd : (argsGet args "description").truthy
    · have hre : PyVal.truthy (PyVal.list []) = false := rfl
      simp [Agency.create_task_tool_run, h, hd, hre]
    · simp [Agency.create_task_tool_run, h, hd]
  · intro tasks d c
    exact ⟨rfl, by simp [Agency.create_task]⟩

/-- C2 witness: the wrapper part instantiated on an argument mapping whose
`requirements` entry is the empty list. -/
theorem claim_C2_witness :
    (Agency.create_task_tool_run [] [("description", PyVal.str "d"),
      ("requirements", PyVal.list [])]).invoked = false ∧
    (Agency.create_task_tool_run [] [("description", PyVal.str "d"),
      ("requirements", PyVal.list [])]).tasks = [] ∧
    (Agency.create_task_tool_run [] [("description", PyVal.str "d"),
      ("requirements", PyVal.list [])]).events = [] ∧
    ((Agency.create_task_tool_run [] [("description", PyVal.str "d"),
      ("requirements", PyVal.list [])]).output =
        "Error creating task: No description provided." ∨
      (Agency.create_task_tool_run [] [("description", PyVal.str "d"),
        ("requirements", PyVal.list [])]).output =
        "Error creating task: No requirements provided.") :=
  claim_C2.1 [] [("description", PyVal.str "d"), ("requirements", PyVal.list [])] rfl

/-- C1 counterexample: `notes` is in `modify_task_notes_tool`'s `required`
list, yet with `notes` absent from the argument mapping (and a valid
`task_id`) the wrapper does not return an error: it invokes the underlying
`modify_task_notes`, mutates the task (storing `None` into its notes), and
reports success. -/
theorem claim_C1_counterexample :
    "notes" ∈ Agency.modify_task_notes_tool.parameters.required ∧
    List.lookup "notes" [("task_id", PyVal.str "task_1")] = Option.none ∧
    (Agency.modify_task_notes_tool_run [sampleTask]
      [("task_id", PyVal.str "task_1")]).invoked = true ∧
    (Agency.modify_task_notes_tool_run [sampleTask]
      [("task_id", PyVal.str "task_1")]).tasks ≠ [sampleTask] ∧
    (Agency.modify_task_notes_tool_run [sampleTask]
      [("task_id", PyVal.str "task_1")]).output =
      "Notes for task with id task_1 modified." := by
  refine ⟨by decide, rfl, rfl, by decide, by decide⟩

/-- C1 (amended): for the `create_task`, `complete_task` and
`modify_task_requirements` wrappers, an argument from the schema's
`required` list that is absent from the argument mapping yields a textual
error without invoking the underlying operation, leaving the task list
unchanged and publishing nothing; for `modify_task_notes` this holds for an
absent `task_id`, but not for an absent `notes` (which the wrapper never
validates). -/
theorem claim_C1 :
    (∀ (tasks : List Task) (args : Args) (r : String),
      r ∈ Agency.create_task_tool.parameters.required →
      List.lookup r args = Option.none →
      (Agency.create_task_tool_run tasks args).invoked = false ∧
      (Agency.create_task_tool_run tasks args).tasks = tasks ∧
      (Agency.create_task_tool_run tasks args).events = [] ∧
      ((Agency.create_task_tool_run tasks args).output =
          "Error creating task: No description provided." ∨
        (Agency.create_task_tool_run tasks args).output =
          "Error creating task: No requirements provided.")) ∧
    (∀ (tasks : List Task) (args : Args) (r : String),
      r ∈ Agency.complete_task_tool.parameters.required →
      List.lookup r args = Option.none →
      Agency.complete_task_tool_run tasks args =
        ⟨"Task with id None not found.", false, tasks, []⟩) ∧
    (∀ (tasks : List Task) (args : Args) (r : String),
      r ∈ Agency.modify_task_requirements_tool.parameters.required →
      List.lookup r args = Option.none →
      (Agency.modify_task_requirements_tool_run tasks args).invoked = false ∧
      (Agency.modify_task_requirements_tool_run tasks args).tasks = tasks ∧
      (Agency.modify_task_requirements_tool_run tasks args).events = [] ∧
      ((Agency.modify_task_requirements_tool_run tasks args).output =
          "Task with id " ++ (argsGet args "task_id").pyStr ++ " not found." ∨
        (Agency.modify_task_requirements_tool_run tasks args).output =
          "Error modifying task: No requirements provided.")) ∧
    (∀ (tasks : List Task) (args : Args),
      List.lookup "task_id" args = Option.none →
      Agency.modify_task_notes_tool_run tasks args =
        ⟨"Task with id None not found.", false, tasks, []⟩) := by
  refine ⟨?_, ?_, ?_, ?_⟩
  · intro tasks args r hr hl
    have hr2 : r = "description" ∨ r = "requirements" := by
      simpa [Agency.create_task_tool] using hr
    rcases hr2 with rfl | rfl
    · have hg : argsGet args "description" = PyVal.none := by simp [argsGet, hl]
      have hn : PyVal.truthy PyVal.none = false := rfl
      simp [Agency.create_task_tool_run, hg, hn]
    · have hg : argsGet args "requirements" = PyVal.none := by simp [argsGet, hl]
      by_cases hd : (argsGet args "description").truthy
      · have hn : PyVal.truthy PyVal.none = false := rfl
        simp [Agency.create_task_tool_run, hg, hd, hn]
      · simp [Agency.create_task_tool_run, hg, hd]
  · intro tasks args r hr hl
    have hr2 : r = "task_id" := by simpa [Agency.complete_task_tool] using hr
    subst hr2
    have hg : argsGet args "task_id" = PyVal.none := by simp [argsGet, hl]
    simp [Agency.complete_task_tool_run, hg, PyVal.isNone, PyVal.pyStr]
  · intro tasks args r hr hl
    have hr2 : r = "task_id" ∨ r = "requirements" := by
      simpa [Agency.modify_task_requirements_tool] using hr
    rcases hr2 with rfl | rfl
    · have hg : argsGet args "task_id" = PyVal.none := by simp [argsGet, hl]
      simp [Agency.modify_task_requirements_tool_run, hg, PyVal.isNone]
    · have hg : argsGet args "requirements" = PyVal.none := by simp [argsGet, hl]
      by_cases ht : (argsGet args "task_id").isNone
      · simp [Agency.modify_task_requirements_tool_run, ht]
      · simp [Agency.modify_task_requirements_tool_run, hg, ht, PyVal.truthy]
  · intro tasks args hl
    have hg : argsGet args "task_id" = PyVal.none := by simp [argsGet, hl]
    simp [Agency.modify_task_notes_tool_run, hg, PyVal.isNone, PyVal.pyStr]

/-- C1 witness: the wrapper-validation statement instantiated on an empty
argument mapping and the required `description` argument of `create_task`. -/
theorem claim_C1_witness :
    (Agency.create_task_tool_run [] []).invoked = false ∧
    (Agency.create_task_tool_run [] []).tasks = [] ∧
    (Agency.create_task_tool_run [] []).events = [] ∧
    ((Agency.create_task_tool_run [] []).output =
        "Error creating task: No description provided." ∨
      (Agency.create_task_tool_run [] []).output =
        "Error creating task: No requirements provided.") :=
  claim_C1.1 [] [] "description" (by decide) rfl

end SimpleAgent
